import Mathlib

/-!
Verification of the cf_ai_baseball worker pipeline (src/workers/agent.ts).

The worker is a four-stage request pipeline: input guard, SQL synthesis via a
hosted model, query execution against a D1 database, and response composition
with a deterministic fallback formatter.  The two model calls and the database
are external collaborators; they enter the embedding as explicit outcome
parameters (an `Except` value for a call that can throw) and, for the database,
as a state-passing oracle.  JavaScript numbers are modelled as rationals;
JavaScript objects (result rows) as ordered association lists, where a missing
key plays the role of `undefined` and `Value.vNull` the role of SQL `NULL`.
-/

/-- The backtick character, written by code point. -/
def tick : Char := Char.ofNat 96

/-- The decimal digit character for `d` (meaningful for `d < 10`). -/
def digitChar (d : Nat) : Char := Char.ofNat (48 + d)

/-- Decimal digit characters of a natural number, most significant first.
`fuel` bounds the recursion; `fuel = n + 1` always suffices. -/
def natChars (fuel n : Nat) : List Char :=
  match fuel with
  | 0 => []
  | f + 1 => if n < 10 then [digitChar n] else natChars f (n / 10) ++ [digitChar (n % 10)]

/-- Decimal string of a natural number (the JavaScript rendering of a
non-negative integer). -/
def natToStr (n : Nat) : String := String.mk (natChars (n + 1) n)

/-- Decimal string of an integer. -/
def intToStr (i : Int) : String :=
  if i < 0 then "-" ++ natToStr i.natAbs else natToStr i.natAbs

/-- Fractional decimal digits of `num / den` (`num < den`), most significant
first, stopping at a zero remainder or when `fuel` runs out.  The JavaScript
numbers reaching this function are dyadic rationals, whose decimal expansions
terminate. -/
def fracChars (fuel num den : Nat) : List Char :=
  match fuel with
  | 0 => []
  | f + 1 =>
      if num = 0 then []
      else digitChar (num * 10 / den) :: fracChars f (num * 10 % den) den

/-- The JavaScript `ToString` of a number, modelled on `ℚ`: integers print
with no decimal point, other values print sign, integer part and the
(terminating) fractional expansion.  Computed on the numerator and
denominator directly. -/
def jsNumToString (q : ℚ) : String :=
  if q.den = 1 then intToStr q.num
  else
    (if q.num < 0 then "-" else "")
      ++ natToStr (q.num.natAbs / q.den)
      ++ "."
      ++ String.mk (fracChars q.den (q.num.natAbs % q.den) q.den)

/-- JavaScript whitespace, restricted to the characters that can occur in the
strings this pipeline handles. -/
def jsWS (c : Char) : Bool := c == ' ' || c == '\t' || c == '\n' || c == '\r'

/-- JavaScript `String.prototype.trim` on a character list: drop whitespace
from both ends. -/
def jsTrim (l : List Char) : List Char :=
  ((l.dropWhile jsWS).reverse.dropWhile jsWS).reverse

/-- JavaScript `Array.prototype.join(sep)`. -/
def joinWith (sep : String) : List String → String
  | [] => ""
  | [x] => x
  | x :: xs => x ++ sep ++ joinWith sep xs

/-- Whether `pat` is a prefix of `l`, as a boolean. -/
def startsWithCh (pat l : List Char) : Bool :=
  match pat, l with
  | [], _ => true
  | _ :: _, [] => false
  | p :: ps, c :: cs => p == c && startsWithCh ps cs

/-- Whether `pat` occurs as a contiguous substring of `l`. -/
def containsSub (pat l : List Char) : Bool :=
  startsWithCh pat l ||
    match l with
    | [] => false
    | _ :: cs => containsSub pat cs

/-- JavaScript `String.prototype.includes`. -/
def includesB (s pat : String) : Bool := containsSub pat.data s.data

/-- A SQL value as returned by the database: string, number or null.  An
absent key of a row models JavaScript `undefined`. -/
inductive Value where
  | vNull : Value
  | vStr (s : String) : Value
  | vNum (q : ℚ) : Value
deriving DecidableEq, Repr

/-- A result row: an ordered association list from column name to value,
mirroring a JavaScript object in insertion order. -/
abbrev Row := List (String × Value)

/-- JavaScript property read `row[k]`: `none` is `undefined`. -/
def jsGet (row : Row) (k : String) : Option Value := List.lookup k row

/-- JavaScript truthiness of a possibly absent value: `undefined`, `null`,
the empty string and the number `0` are falsy. -/
def truthy : Option Value → Bool
  | none => false
  | some .vNull => false
  | some (.vStr s) => !(s == "")
  | some (.vNum q) => !(q == 0)

/-- JavaScript `String(v)` on a value. -/
def renderValue : Value → String
  | .vNull => "null"
  | .vStr s => s
  | .vNum q => jsNumToString q

/-- Template-literal rendering of a possibly absent value. -/
def jsRender : Option Value → String
  | none => "undefined"
  | some v => renderValue v

/-- Escaping of quote and backslash, the JSON.stringify escapes relevant to
this data. -/
def jsonEscape (s : String) : String :=
  String.mk (s.data.foldr (fun c acc =>
    if c = '"' ∨ c = '\\' then '\\' :: c :: acc else c :: acc) [])

/-- `JSON.stringify` of a single value. -/
def jsonStringifyValue : Value → String
  | .vNull => "null"
  | .vNum q => jsNumToString q
  | .vStr s => "\"" ++ jsonEscape s ++ "\""

/-- `JSON.stringify` of a row (no indentation). -/
def jsonStringifyRow (row : Row) : String :=
  "\x7b" ++
    joinWith ","
      (row.map fun kv => "\"" ++ jsonEscape kv.1 ++ "\":" ++ jsonStringifyValue kv.2)
    ++ "\x7d"

/-- Digit characters of a list, as taken by `parseFloat`. -/
def takeDigits (l : List Char) : List Char × List Char :=
  (l.takeWhile Char.isDigit, l.dropWhile Char.isDigit)

/-- Natural number denoted by a list of decimal digit characters. -/
def digitsToNat (ds : List Char) : Nat :=
  ds.foldl (fun acc c => acc * 10 + (c.toNat - 48)) 0

/-- JavaScript `parseFloat`, modelled for plain decimal numerals: `none` is
`NaN`.  A number parses to itself; `null` stringifies to "null" and yields
`NaN`; a string is parsed as optional sign, digits and an optional fraction
(the exponent forms, which this pipeline never meets, are omitted). -/
def jsParseFloat : Value → Option ℚ
  | .vNum q => some q
  | .vNull => none
  | .vStr s =>
      let l := s.data.dropWhile jsWS
      let sl : Int × List Char :=
        match l with
        | '-' :: r => (-1, r)
        | '+' :: r => (1, r)
        | r => (1, r)
      let ip := takeDigits sl.2
      let fp : List Char :=
        match ip.2 with
        | '.' :: r => (takeDigits r).1
        | _ => []
      if ip.1 = [] ∧ fp = [] then none
      else some ((sl.1 : ℚ) * ((digitsToNat ip.1 : ℚ)
        + (digitsToNat fp : ℚ) / ((10 : ℚ) ^ fp.length)))

/-- `parseFloat` applied to a possibly absent value (`undefined` is `NaN`). -/
def jsParseFloatOpt (o : Option Value) : Option ℚ := o.bind jsParseFloat

/-- JavaScript `Number.prototype.toFixed(2)`: sign, integer part and exactly
two rounded fractional digits.  `n` is `|q| * 100` rounded half away from
zero, computed on the numerator and denominator with integer arithmetic:
`(200 * |num| + den) / (2 * den) = floor(|q| * 100 + 1/2)`. -/
def toFixed2 (q : ℚ) : String :=
  let n : Nat := (q.num.natAbs * 200 + q.den) / (2 * q.den)
  (if q.num < 0 then "-" else "")
    ++ natToStr (n / 100) ++ "."
    ++ String.mk [digitChar (n % 100 / 10), digitChar (n % 10)]

/-- `toFixed(2)` after a possibly failed `parseFloat`: `NaN.toFixed(2)` is
the string "NaN". -/
def toFixed2Opt : Option ℚ → String
  | none => "NaN"
  | some q => toFixed2 q

/-- The cell renderer of `formatTable` (src/workers/agent.ts line 233-236):
null renders empty, numbers with two decimals, anything else via `String`. -/
def cellString : Option Value → String
  | some .vNull => ""
  | some (.vNum q) => toFixed2 q
  | some (.vStr s) => s
  | none => "undefined"

/-- `formatTable` (src/workers/agent.ts lines 227-239): plain-text table with
a header row of the first row's column names, a separator row, and one line
per record. -/
def formatTable' (results : List Row) : String :=
  match results with
  | [] => "No results found."
  | r0 :: _ =>
      let keys := r0.map Prod.fst
      let header := joinWith " | " keys
      let separator := joinWith " | " (keys.map fun _ => "---")
      let rows := results.map fun row =>
        joinWith " | " (keys.map fun key => cellString (jsGet row key))
      joinWith "\n" (header :: separator :: rows)

/-- The single-row multi-column branch of `formatSimple` (src/workers/agent.ts
lines 214-221): assemble well-known columns into a sentence, else dump the
row as JSON. -/
def multiColumnSentence (row : Row) : String :=
  let parts : List String :=
    (if truthy (jsGet row "nameFirst") && truthy (jsGet row "nameLast") then
      [jsRender (jsGet row "nameFirst") ++ " " ++ jsRender (jsGet row "nameLast")]
     else []) ++
    (if (jsGet row "ERA").isSome then
      ["ERA: " ++ toFixed2Opt (jsParseFloatOpt (jsGet row "ERA"))]
     else []) ++
    (if (jsGet row "SO").isSome then [jsRender (jsGet row "SO") ++ " SO"] else []) ++
    (if (jsGet row "W").isSome then [jsRender (jsGet row "W") ++ " W"] else []) ++
    (if truthy (jsGet row "yearID") then
      ["(" ++ jsRender (jsGet row "yearID") ++ ")"]
     else [])
  if 0 < parts.length then joinWith " " parts else jsonStringifyRow row

/-- `formatSimple` (src/workers/agent.ts lines 192-225), the deterministic
fallback formatter.  The `userQuery` parameter mirrors the source signature
and is never read.  A single row with a single column is matched directly
(the source tests `Object.keys(row).length === 1`, which for an association
list is exactly the one-entry shape). -/
def formatSimple (results : List Row) (userQuery : String) : String :=
  match results with
  | [] => "No results found."
  | [row] =>
      match row with
      | [(key, value)] =>
          match value with
          | .vNull => "No data available."
          | v =>
              if includesB key "SUM(" then "The total is " ++ renderValue v ++ "."
              else if includesB key "AVG(" then
                "The average is " ++ toFixed2Opt (jsParseFloat v) ++ "."
              else if includesB key "COUNT(" then
                "The count is " ++ renderValue v ++ "."
              else "Result: " ++ key ++ " = " ++ renderValue v
      | _ => multiColumnSentence row
  | _ => formatTable' results

/-- The fixed explanatory message of the empty-result branch
(src/workers/agent.ts lines 146-151), verbatim. -/
def noResultsMessage : String :=
  "I couldn\'t find any data matching your question. This could be because:\n" ++
  "- The player name might be spelled differently\n" ++
  "- The year might not be in our dataset (we have data from 2018-2024)\n" ++
  "- The team abbreviation might need adjustment (e.g., SEA for Seattle, " ++
  "NYA for Yankees, WAS for Nationals)\n\n" ++
  "Would you like to try rephrasing your question?"

/-- `formatResponse` (src/workers/agent.ts lines 139-190).  The summarization
model call is an explicit outcome `summ` (`.error` when the call throws).
The boolean of the result records whether the model call site was reached.
The prompt built from the query, the SQL and the serialized rows only feeds
the model and so does not influence the returned value. -/
def formatResponseT (summ : Except String String) (userQuery : String)
    (results : List Row) (sql : String) : String × Bool :=
  if results.length = 0 then (noResultsMessage, false)
  else
    match summ with
    | .error _ => (formatSimple results userQuery, true)
    | .ok raw =>
        let answer := raw.trim
        if answer = "" ∨ answer.length < 10 then (formatSimple results userQuery, true)
        else (answer, true)

/-- Drop one leading newline, the optional newline of the fence patterns. -/
def dropOneNl (l : List Char) : List Char :=
  match l with
  | '\n' :: r => r
  | r => r

/-- One left-to-right pass of the global replace of the pattern three
backticks followed by an optional newline with the empty string
(the second replace at src/workers/agent.ts line 119).  `fuel` bounds the recursion; `fuel = l.length` always suffices
since every step consumes at least one character. -/
def stripFencesGo (fuel : Nat) (l : List Char) : List Char :=
  match fuel with
  | 0 => []
  | f + 1 =>
      match l with
      | [] => []
      | c :: rest =>
          if c = tick ∧ rest.take 2 = [tick, tick] then
            stripFencesGo f (dropOneNl (rest.drop 2))
          else c :: stripFencesGo f rest

/-- Global replace of three backticks plus optional newline with nothing. -/
def stripFences (l : List Char) : List Char := stripFencesGo l.length l

/-- Global replace of the pattern three backticks, the letters sql, and an
optional newline with the empty string (first replace of line 119). -/
def stripSqlFencesGo (fuel : Nat) (l : List Char) : List Char :=
  match fuel with
  | 0 => []
  | f + 1 =>
      match l with
      | [] => []
      | c :: rest =>
          if c = tick ∧ rest.take 5 = [tick, tick, 's', 'q', 'l'] then
            stripSqlFencesGo f (dropOneNl (rest.drop 5))
          else c :: stripSqlFencesGo f rest

/-- Wrapper with sufficient fuel. -/
def stripSqlFences (l : List Char) : List Char := stripSqlFencesGo l.length l

/-- The trimmed, fence-stripped model text of `generateSQL`
(src/workers/agent.ts lines 118-121): trim, strip the sql-tagged fences,
strip the remaining fences, trim again. -/
def strippedSQL (raw : String) : List Char :=
  jsTrim (stripFences (stripSqlFences (jsTrim raw.data)))

/-- The post-processing of `generateSQL` (src/workers/agent.ts lines
118-124): the stripped text with a terminating semicolon appended when it
does not already end with one. -/
def postProcessChars (raw : String) : List Char :=
  let l := strippedSQL raw
  if l.getLast? = some ';' then l else l ++ [';']

/-- String form of the post-processed SQL. -/
def postProcessSQL (raw : String) : String := String.mk (postProcessChars raw)

/-- A JSON document, the shape of a parsed request body and of the worker's
response envelopes. -/
inductive Jsonish where
  | jNull : Jsonish
  | jBool (b : Bool) : Jsonish
  | jNum (q : ℚ) : Jsonish
  | jStr (s : String) : Jsonish
  | jArr (elems : List Jsonish) : Jsonish
  | jObj (fields : List (String × Jsonish)) : Jsonish

/-- A result value as a JSON value. -/
def valueToJson : Value → Jsonish
  | .vNull => .jNull
  | .vStr s => .jStr s
  | .vNum q => .jNum q

/-- A result row as a JSON object. -/
def rowToJson (row : Row) : Jsonish :=
  .jObj (row.map fun kv => (kv.1, valueToJson kv.2))

/-- Property access on a parsed non-null body: `undefined` (`none`) unless
the document is an object with the field.  Destructuring a parsed body of
JSON null does not reach property access at all — it throws a TypeError,
which `chatHandler` models separately. -/
def getField (j : Jsonish) (k : String) : Option Jsonish :=
  match j with
  | .jObj fields => List.lookup k fields
  | _ => none

/-- The body of an HTTP response: empty, plain text, or a JSON document. -/
inductive BodyKind where
  | empty : BodyKind
  | text (s : String) : BodyKind
  | json (j : Jsonish) : BodyKind

/-- The parts of a `Response` the specification speaks about. -/
structure HttpResponse where
  status : Nat
  body : BodyKind
  corsOrigin : Bool
  contentType : Option String

/-- `jsonResponse` (src/workers/agent.ts lines 241-249): a JSON body with the
permissive cross-origin header. -/
def jsonResponse (data : Jsonish) (status : Nat) : HttpResponse :=
  { status := status, body := .json data, corsOrigin := true,
    contentType := some "application/json" }

/-- An outbound call of the pipeline: a model invocation or a database
query. -/
inductive CallEvent where
  | model : CallEvent
  | db : CallEvent
deriving DecidableEq, Repr

/-- The three reference tables.  Only read paths exist in the worker; any
change can come only through the SQL handed to the engine. -/
structure DBState where
  people : List Row
  teams : List Row
  pitching : List Row
deriving DecidableEq

/-- The success envelope of the chat route (src/workers/agent.ts lines
78-83). -/
def successEnvelope (msg sql : String) (rows : List Row) : Jsonish :=
  .jObj [("success", .jBool true), ("message", .jStr msg), ("sql", .jStr sql),
    ("results", .jArr (rows.map rowToJson))]

/-- The catch-all error envelope (src/workers/agent.ts lines 86-92):
the message of the thrown error, falling back to the fixed text when that message is empty (falsy). -/
def errorEnvelope (e : String) : Jsonish :=
  .jObj [("success", .jBool false),
    ("error", .jStr (if e = "" then "An error occurred" else e))]

/-- `executeQuery` (src/workers/agent.ts lines 129-137): run the SQL through
the engine and re-signal an engine error with the typed prefix. -/
def executeQuery (engine : String → DBState → Except String (List Row) × DBState)
    (sql : String) (db : DBState) : Except String (List Row) × DBState :=
  match engine sql db with
  | (.ok rows, db2) => (.ok rows, db2)
  | (.error e, db2) => (.error ("Database query failed: " ++ e), db2)

/-- The TypeError message of destructuring a null value, as V8 words it for
line 63 of src/workers/agent.ts. -/
def destructureNullMessage : String :=
  "Cannot destructure property \'message\' of \'(intermediate value)\' as it is null."

/-- The `POST /api/chat` branch of the fetch handler (src/workers/agent.ts
lines 61-94).  `parseOutcome` is the outcome of `request.json()`; `ai1` and
`ai2` the outcomes of the two model calls (synthesis and summarization);
`engine` the database.  The third component lists the outbound calls made, in
order.  A parsed body of JSON null makes the destructuring on line 63 throw
a TypeError, which the surrounding try turns into a 500 (`undefined` cannot
arise from valid JSON, and a parse failure is the `.error` case).  On any
other body the guard accepts exactly a non-empty string `message` field (the
source tests falsiness, rejecting a missing, null or empty field, and then
the typeof test rejects any non-string). -/
def chatHandler (parseOutcome : Except String Jsonish) (ai1 : Except String String)
    (engine : String → DBState → Except String (List Row) × DBState)
    (ai2 : Except String String) (db : DBState) :
    HttpResponse × DBState × List CallEvent :=
  match parseOutcome with
  | .error e => (jsonResponse (errorEnvelope e) 500, db, [])
  | .ok .jNull => (jsonResponse (errorEnvelope destructureNullMessage) 500, db, [])
  | .ok body =>
      match getField body "message" with
      | some (.jStr s) =>
          if s = "" then
            (jsonResponse (.jObj [("error", .jStr "Invalid message")]) 400, db, [])
          else
            match ai1 with
            | .error e => (jsonResponse (errorEnvelope e) 500, db, [.model])
            | .ok raw =>
                let sql := postProcessSQL raw
                match executeQuery engine sql db with
                | (.error e, db2) => (jsonResponse (errorEnvelope e) 500, db2, [.model, .db])
                | (.ok rows, db2) =>
                    let fr := formatResponseT ai2 s rows sql
                    (jsonResponse (successEnvelope fr.1 sql rows) 200, db2,
                      [.model, .db] ++ (if fr.2 then [.model] else []))
      | _ => (jsonResponse (.jObj [("error", .jStr "Invalid message")]) 400, db, [])

/-- The static presentation document (src/workers/agent.ts lines 251-450).
Only its existence, status and content type bear on the specification; the
markup itself is immaterial and abbreviated here. -/
def HTML_CONTENT : String := "<!DOCTYPE html>"

/-- The fetch handler (src/workers/agent.ts lines 47-104): preflight first,
then the chat route, then the static document (on any method), then 404. -/
def fetchHandler (method path : String) (parseOutcome : Except String Jsonish)
    (ai1 : Except String String)
    (engine : String → DBState → Except String (List Row) × DBState)
    (ai2 : Except String String) (db : DBState) :
    HttpResponse × DBState × List CallEvent :=
  if method = "OPTIONS" then
    ({ status := 200, body := .empty, corsOrigin := true, contentType := none }, db, [])
  else if path = "/api/chat" ∧ method = "POST" then
    chatHandler parseOutcome ai1 engine ai2 db
  else if path = "/" ∨ path = "/index.html" then
    ({ status := 200, body := .text HTML_CONTENT, corsOrigin := false,
       contentType := some "text/html" }, db, [])
  else
    ({ status := 404, body := .text "Not found", corsOrigin := false,
       contentType := none }, db, [])

/-- Modelled from the spec: the pipeline applies no validation to the
synthesized statement, so whether a statement reads or mutates is decided by
the engine.  A read-only statement in the sense of the spec is one whose
first keyword is SELECT. -/
def isSelectStmt (s : String) : Bool :=
  startsWithCh "SELECT".data ((jsTrim s.data).map Char.toUpper)

/-- Modelled from the spec: a relational engine that, like the SQLite engine
behind D1, executes data-changing statements as-is — here, any non-SELECT
statement empties the people table.  SELECT statements leave the state
unchanged. -/
def deleteEngine : String → DBState → Except String (List Row) × DBState :=
  fun s d => if isSelectStmt s then (.ok [], d) else (.ok [], { d with people := [] })

/-- An engine that reads nothing and never changes state, for concrete
instantiations. -/
def trivEngine : String → DBState → Except String (List Row) × DBState :=
  fun _ d => (.ok [], d)

example : formatSimple [[("SUM(W)", Value.vNum 94)]] "q" = "The total is 94." := by decide

example : formatSimple [[("AVG(ERA)", Value.vNum 2)]] "q" = "The average is 2.00." := by
  decide

example : formatSimple [[("AVG(ERA)", Value.vNum (Rat.mk' 7 2 (by decide) (by decide)))]] "q"
    = "The average is 3.50." := by decide

/-! ### Basic facts about the string helpers -/

/-- A string with a positive length is not empty. -/
theorem ne_empty_of_length_pos {s : String} (h : 0 < s.length) : s ≠ "" := by
  intro he
  subst he
  simp at h

/-- A left factor that is not empty keeps an append from being empty. -/
theorem append_ne_empty_left {a : String} (b : String) (h : a ≠ "") : a ++ b ≠ "" := by
  apply ne_empty_of_length_pos
  rw [String.length_append]
  have : 0 < a.length := by
    rcases Nat.eq_zero_or_pos a.length with h0 | h0
    · exact absurd (String.ext (List.length_eq_zero.mp h0)) h
    · exact h0
  omega

/-- A right factor that is not empty keeps an append from being empty. -/
theorem append_ne_empty_right (a : String) {b : String} (h : b ≠ "") : a ++ b ≠ "" := by
  apply ne_empty_of_length_pos
  rw [String.length_append]
  have : 0 < b.length := by
    rcases Nat.eq_zero_or_pos b.length with h0 | h0
    · exact absurd (String.ext (List.length_eq_zero.mp h0)) h
    · exact h0
  omega

/-- A join of non-empty strings over a non-empty list is non-empty. -/
theorem joinWith_ne_empty (sep : String) :
    ∀ l : List String, l ≠ [] → (∀ p ∈ l, p ≠ "") → joinWith sep l ≠ "" := by
  intro l
  induction l with
  | nil => intro h _; exact absurd rfl h
  | cons x xs ih =>
      intro _ hall
      cases xs with
      | nil => simpa [joinWith] using hall x (by simp)
      | cons y ys =>
          have hx : x ≠ "" := hall x (by simp)
          simpa [joinWith] using append_ne_empty_left _ (append_ne_empty_left _ hx)

/-- The digit character of `d < 10` is a decimal digit. -/
theorem digitChar_isDigit {d : Nat} (h : d < 10) : (digitChar d).isDigit = true := by
  interval_cases d <;> decide

/-- Every character `natChars` produces is a decimal digit. -/
theorem natChars_isDigit : ∀ (fuel n : Nat), ∀ c ∈ natChars fuel n, c.isDigit = true := by
  intro fuel
  induction fuel with
  | zero => intro n c hc; simp [natChars] at hc
  | succ f ih =>
      intro n c hc
      by_cases h : n < 10
      · simp [natChars, h] at hc
        subst hc
        exact digitChar_isDigit h
      · simp [natChars, h] at hc
        rcases hc with hc | hc
        · exact ih _ c hc
        · subst hc
          exact digitChar_isDigit (Nat.mod_lt _ (by omega))

/-- A rendered string has exactly two decimal places: it splits as a prefix
with no decimal point, a point, and two digit characters. -/
def twoDecimalPlaces (s : String) : Prop :=
  ∃ pre d1 d2, s = pre ++ String.mk ['.', d1, d2] ∧ d1.isDigit = true ∧
    d2.isDigit = true ∧ '.' ∉ pre.data

/-- `toFixed2` always renders with exactly two decimal places. -/
theorem toFixed2_twoDecimalPlaces (q : ℚ) : twoDecimalPlaces (toFixed2 q) := by
  refine ⟨(if q.num < 0 then "-" else "")
      ++ natToStr ((q.num.natAbs * 200 + q.den) / (2 * q.den) / 100),
    digitChar ((q.num.natAbs * 200 + q.den) / (2 * q.den) % 100 / 10),
    digitChar ((q.num.natAbs * 200 + q.den) / (2 * q.den) % 10), ?_, ?_, ?_, ?_⟩
  · apply String.ext
    simp [toFixed2, String.data_append]
  · exact digitChar_isDigit (by omega)
  · exact digitChar_isDigit (Nat.mod_lt _ (by omega))
  · intro hmem
    rw [String.data_append] at hmem
    rcases List.mem_append.mp hmem with hmem | hmem
    · split at hmem <;> simp_all
    · have := natChars_isDigit _ _ _ hmem
      simp at this

/-! ### Non-emptiness of the deterministic fallback formatter -/

/-- Choosing between a join of non-empty parts and a non-empty fallback
never yields the empty string. -/
theorem ite_joinWith_ne_empty (sep : String) (parts : List String) (fb : String)
    (hm : ∀ p ∈ parts, p ≠ "") (hf : fb ≠ "") :
    (if 0 < parts.length then joinWith sep parts else fb) ≠ "" := by
  split
  · exact joinWith_ne_empty sep parts (List.length_pos.mp (by assumption)) hm
  · exact hf

/-- The multi-column sentence is never empty: each part carries a fixed
non-empty fragment, and the JSON dump carries its braces. -/
theorem multiColumnSentence_ne_empty (row : Row) : multiColumnSentence row ≠ "" := by
  simp only [multiColumnSentence]
  apply ite_joinWith_ne_empty
  · intro p hp
    rcases List.mem_append.mp hp with hp | hp
    · rcases List.mem_append.mp hp with hp | hp
      · rcases List.mem_append.mp hp with hp | hp
        · rcases List.mem_append.mp hp with hp | hp
          · split at hp
            · rw [List.mem_singleton.mp hp]
              exact append_ne_empty_left _ (append_ne_empty_right _ (by decide))
            · simp at hp
          · split at hp
            · rw [List.mem_singleton.mp hp]
              exact append_ne_empty_left _ (by decide)
            · simp at hp
        · split at hp
          · rw [List.mem_singleton.mp hp]
            exact append_ne_empty_right _ (by decide)
          · simp at hp
      · split at hp
        · rw [List.mem_singleton.mp hp]
          exact append_ne_empty_right _ (by decide)
        · simp at hp
    · split at hp
      · rw [List.mem_singleton.mp hp]
        exact append_ne_empty_right _ (by decide)
      · simp at hp
  · exact append_ne_empty_right _ (by decide)

/-- The rendered table of at least two rows is never empty: the joined lines
contain at least one newline. -/
theorem formatTable_ne_empty (r0 r1 : Row) (rest : List Row) :
    formatTable' (r0 :: r1 :: rest) ≠ "" := by
  simp only [formatTable', List.map_cons, joinWith]
  exact append_ne_empty_left _ (append_ne_empty_right _ (by decide))

/-- The deterministic fallback formatter returns a non-empty string on every
non-empty result sequence. -/
theorem formatSimple_ne_empty (results : List Row) (uq : String) (h : results ≠ []) :
    formatSimple results uq ≠ "" := by
  rcases results with _ | ⟨row, rest⟩
  · exact absurd rfl h
  rcases rest with _ | ⟨r1, rest1⟩
  · rcases row with _ | ⟨⟨k, v⟩, row1⟩
    · simp only [formatSimple]
      exact multiColumnSentence_ne_empty []
    rcases row1 with _ | ⟨e2, row2⟩
    · rcases v with _ | s | q
      · simp only [formatSimple]
        decide
      · simp only [formatSimple]
        split
        · exact append_ne_empty_right _ (by decide)
        split
        · exact append_ne_empty_right _ (by decide)
        split
        · exact append_ne_empty_right _ (by decide)
        · exact append_ne_empty_left _ (append_ne_empty_right _ (by decide))
      · simp only [formatSimple]
        split
        · exact append_ne_empty_right _ (by decide)
        split
        · exact append_ne_empty_right _ (by decide)
        split
        · exact append_ne_empty_right _ (by decide)
        · exact append_ne_empty_left _ (append_ne_empty_right _ (by decide))
    · simp only [formatSimple]
      exact multiColumnSentence_ne_empty _
  · simp only [formatSimple]
    exact formatTable_ne_empty row r1 rest1

/-- A body with a present field is an object — in particular it is not the
JSON null whose destructuring throws. -/
theorem getField_eq_some {body : Jsonish} {k : String} {j : Jsonish}
    (h : getField body k = some j) : ∃ fields, body = .jObj fields := by
  cases body with
  | jObj fields => exact ⟨fields, rfl⟩
  | jNull => simp [getField] at h
  | jBool b => simp [getField] at h
  | jNum q => simp [getField] at h
  | jStr s => simp [getField] at h
  | jArr elems => simp [getField] at h

/-! ### Claim theorems: response composition -/

/-- C1: for every result row sequence of length at least one, if the
summarization call throws or returns text whose trimmed length is below the
threshold of ten, `formatResponse` returns the output of the deterministic
fallback `formatSimple`, that output is non-empty, and the failure never
surfaces as an error: the chat route still answers with status 200. -/
theorem c1_summarization_failure_masked (summ : Except String String) (uq sql : String)
    (results : List Row) (h : results ≠ [])
    (hfail : (∃ e, summ = .error e) ∨
      ∃ raw, summ = .ok raw ∧ (raw.trim = "" ∨ raw.trim.length < 10)) :
    (formatResponseT summ uq results sql).1 = formatSimple results uq ∧
    formatSimple results uq ≠ "" ∧
    ∀ (body : Jsonish) (s raw : String)
      (engine : String → DBState → Except String (List Row) × DBState)
      (db db2 : DBState) (rows : List Row),
      getField body "message" = some (.jStr s) → s ≠ "" →
      executeQuery engine (postProcessSQL raw) db = (.ok rows, db2) →
      (chatHandler (.ok body) (.ok raw) engine summ db).1.status = 200 := by
  refine ⟨?_, formatSimple_ne_empty results uq h, ?_⟩
  · simp only [formatResponseT]
    rw [if_neg (by simpa [List.length_eq_zero] using h)]
    rcases hfail with ⟨e, he⟩ | ⟨raw, hr, hshort⟩
    · subst he
      rfl
    · subst hr
      simp only
      rw [if_pos hshort]
  · intro body s raw engine db db2 rows hmsg hs hexec
    obtain ⟨fields, rfl⟩ := getField_eq_some hmsg
    simp only [chatHandler, hmsg]
    rw [if_neg hs]
    simp only [hexec]
    rfl

/-- Witness for C1 at a failing summarization over a one-row aggregate
result. -/
theorem c1_summarization_failure_masked_witness :
    (formatResponseT (.error "model down") "q" [[("SUM(W)", Value.vNum 94)]] "SELECT 1;").1
      = formatSimple [[("SUM(W)", Value.vNum 94)]] "q" ∧
    formatSimple [[("SUM(W)", Value.vNum 94)]] "q" ≠ "" ∧
    (chatHandler (.ok (.jObj [("message", .jStr "q")])) (.ok "SELECT 1") trivEngine
        (.error "model down") ⟨[], [], []⟩).1.status = 200 := by
  obtain ⟨h1, h2, h3⟩ := c1_summarization_failure_masked (.error "model down") "q" "SELECT 1;"
    [[("SUM(W)", Value.vNum 94)]] (List.cons_ne_nil _ _) (Or.inl ⟨"model down", rfl⟩)
  exact ⟨h1, h2,
    h3 (.jObj [("message", .jStr "q")]) "q" "SELECT 1" trivEngine ⟨[], [], []⟩ ⟨[], [], []⟩ []
      rfl (by decide) rfl⟩

/-- C3: on a result row sequence of length zero the Response Composer
returns the fixed explanatory no-results message and never invokes the
summarization model call, for every possible outcome of that call. -/
theorem c3_empty_results_fixed_message (summ : Except String String) (uq sql : String) :
    formatResponseT summ uq [] sql = (noResultsMessage, false) := rfl

/-- C10: the deterministic fallback formatter never reads the user query:
its output is a function of the query results alone. -/
theorem c10_fallback_independent_of_query (results : List Row) (q1 q2 : String) :
    formatSimple results q1 = formatSimple results q2 := rfl

/-- C2 (counterexample): the claim as stated fails at two concrete inputs.
A single-row single-column result whose column name contains SUM( but whose
value is null hits the null guard and answers "No data available.", not a
total sentence.  And a column name containing both SUM( and AVG( takes the
SUM branch, so the per-pattern AVG clause fails: the clauses hold only in
the source's if-else order.  These two inputs force exactly the two
restrictions of the amendment: a non-null value, and the patterns tested in
branch order. -/
theorem c2_aggregate_patterns_counterexample :
    (formatSimple [[("SUM(W)", Value.vNull)]] "" = "No data available." ∧
      startsWithCh "The total is".data (formatSimple [[("SUM(W)", Value.vNull)]] "").data
        = false) ∧
    (includesB "SUM(AVG(W))" "AVG(" = true ∧
      formatSimple [[("SUM(AVG(W))", Value.vNum 1)]] "" = "The total is 1." ∧
      startsWithCh "The average is".data
        (formatSimple [[("SUM(AVG(W))", Value.vNum 1)]] "").data = false) := by
  decide

/-- C2 (amended): for every single-row single-column result with a non-null
value, with the patterns tested in the branch order of the source's if-else
chain — both restrictions forced by the counterexample — a column name
containing SUM( yields "The total is {value}.", one containing AVG( (and not
SUM() yields the parsed value rendered to two decimal places in "The average
is {value}.", and one containing COUNT( (and neither SUM( nor AVG() yields
"The count is {value}."; the result with column SUM(W) and value 94 yields
exactly "The total is 94.". -/
theorem c2_single_column_aggregate_templates (k : String) (v : Value) (uq : String)
    (hv : v ≠ .vNull) :
    (includesB k "SUM(" = true →
      formatSimple [[(k, v)]] uq = "The total is " ++ renderValue v ++ ".") ∧
    (includesB k "SUM(" = false → includesB k "AVG(" = true →
      formatSimple [[(k, v)]] uq = "The average is " ++ toFixed2Opt (jsParseFloat v) ++ "." ∧
      ∀ q : ℚ, v = .vNum q → twoDecimalPlaces (toFixed2 q)) ∧
    (includesB k "SUM(" = false → includesB k "AVG(" = false → includesB k "COUNT(" = true →
      formatSimple [[(k, v)]] uq = "The count is " ++ renderValue v ++ ".") ∧
    formatSimple [[("SUM(W)", Value.vNum 94)]] uq = "The total is 94." := by
  refine ⟨?_, ?_, ?_, rfl⟩
  · intro hsum
    rcases v with _ | s | q
    · exact absurd rfl hv
    · simp [formatSimple, hsum]
    · simp [formatSimple, hsum]
  · intro hsum havg
    rcases v with _ | s | q
    · exact absurd rfl hv
    · refine ⟨by simp [formatSimple, hsum, havg], ?_⟩
      intro q hq
      exact absurd hq (by simp)
    · exact ⟨by simp [formatSimple, hsum, havg], fun q2 hq => by
        injection hq with h2
        exact h2 ▸ toFixed2_twoDecimalPlaces _⟩
  · intro hsum havg hcount
    rcases v with _ | s | q
    · exact absurd rfl hv
    · simp [formatSimple, hsum, havg, hcount]
    · simp [formatSimple, hsum, havg, hcount]

/-- Witness for C2 (amended) at a SUM column with a string value and an AVG
column with an integral numeric value. -/
theorem c2_single_column_aggregate_templates_witness :
    formatSimple [[("SUM(W)", Value.vStr "94")]] "uq"
      = "The total is " ++ renderValue (Value.vStr "94") ++ "." ∧
    formatSimple [[("AVG(ERA)", Value.vNum 2)]] "uq"
      = "The average is " ++ toFixed2Opt (jsParseFloat (Value.vNum 2)) ++ "." := by
  constructor
  · exact (c2_single_column_aggregate_templates "SUM(W)" (Value.vStr "94") "uq"
      (by decide)).1 (by decide)
  · exact ((c2_single_column_aggregate_templates "AVG(ERA)" (Value.vNum 2) "uq"
      (by simp)).2.1 (by decide) (by decide)).1

/-- C7: for two or more rows the fallback table renders a header row of
exactly the first row's column names in order, a separator row, and one line
per record with one cell per header column; a null cell renders empty and a
numeric cell renders with exactly two decimal places. -/
theorem c7_table_rendering (r0 r1 : Row) (rest : List Row) :
    formatTable' (r0 :: r1 :: rest) =
      joinWith "\n"
        (joinWith " | " (r0.map Prod.fst)
          :: joinWith " | " ((r0.map Prod.fst).map fun _ => "---")
          :: (r0 :: r1 :: rest).map fun row =>
              joinWith " | " ((r0.map Prod.fst).map fun key => cellString (jsGet row key))) ∧
    (∀ row : Row,
      (((r0.map Prod.fst).map fun key => cellString (jsGet row key)).length
        = (r0.map Prod.fst).length)) ∧
    (∀ (row : Row) (key : String),
      jsGet row key = some .vNull → cellString (jsGet row key) = "") ∧
    (∀ (row : Row) (key : String) (q : ℚ), jsGet row key = some (.vNum q) →
      cellString (jsGet row key) = toFixed2 q ∧ twoDecimalPlaces (toFixed2 q)) := by
  refine ⟨rfl, ?_, ?_, ?_⟩
  · intro row
    exact List.length_map _ _
  · intro row key h
    rw [h]
    rfl
  · intro row key q h
    rw [h]
    exact ⟨rfl, toFixed2_twoDecimalPlaces q⟩

/-- Witness for C7 on a concrete two-row table with a null and a numeric
cell. -/
theorem c7_table_rendering_witness :
    cellString (jsGet [("name", Value.vNull)] "name") = "" ∧
    cellString (jsGet [("name", Value.vStr "a"), ("ERA", Value.vNum 3)] "ERA")
      = toFixed2 3 := by
  obtain ⟨-, -, h3, h4⟩ :=
    c7_table_rendering [("name", Value.vStr "a"), ("ERA", Value.vNum 3)]
      [("name", Value.vNull)] []
  exact ⟨h3 [("name", Value.vNull)] "name" rfl,
    (h4 [("name", Value.vStr "a"), ("ERA", Value.vNum 3)] "ERA" 3 rfl).1⟩

/-! ### Claim theorems: the HTTP surface -/

/-- C4 (counterexample): a parsed body of JSON null has no message field,
yet the handler does not return 400: the destructuring on line 63 throws a
TypeError which the catch turns into a 500 — still before any model or
database call, but with the wrong status for the claim as stated. -/
theorem c4_null_body_counterexample :
    (fetchHandler "POST" "/api/chat" (.ok .jNull) (.ok "SELECT 1")
        trivEngine (.ok "done") ⟨[], [], []⟩).1.status = 500 ∧
    (fetchHandler "POST" "/api/chat" (.ok .jNull) (.ok "SELECT 1")
        trivEngine (.ok "done") ⟨[], [], []⟩).1.status ≠ 400 ∧
    (fetchHandler "POST" "/api/chat" (.ok .jNull) (.ok "SELECT 1")
        trivEngine (.ok "done") ⟨[], [], []⟩).2.2 = [] ∧
    getField Jsonish.jNull "message" = none := by
  refine ⟨by decide, by decide, by decide, rfl⟩

/-- C4 (amended): on `POST /api/chat` the Input Guard accepts exactly the
requests whose parsed body carries a non-empty string message — processing
then proceeds to SQL synthesis (the first outbound call is a model call).  A
missing message field on any parsed body other than JSON null, and a present
but non-string message field, yield a 400 before any model or database call;
a parsed body of JSON null throws in the destructuring of the message field
and yields a 500 — likewise before any model or database call. -/
theorem c4_input_guard (body : Jsonish) (ai1 : Except String String)
    (engine : String → DBState → Except String (List Row) × DBState)
    (ai2 : Except String String) (db : DBState) :
    (∀ s : String, getField body "message" = some (.jStr s) → s ≠ "" →
      (fetchHandler "POST" "/api/chat" (.ok body) ai1 engine ai2 db).2.2.head?
        = some .model) ∧
    (body ≠ .jNull → getField body "message" = none →
      (fetchHandler "POST" "/api/chat" (.ok body) ai1 engine ai2 db).1
          = jsonResponse (.jObj [("error", .jStr "Invalid message")]) 400 ∧
      (fetchHandler "POST" "/api/chat" (.ok body) ai1 engine ai2 db).2.2 = []) ∧
    (∀ j : Jsonish, getField body "message" = some j → (∀ s : String, j ≠ .jStr s) →
      (fetchHandler "POST" "/api/chat" (.ok body) ai1 engine ai2 db).1
          = jsonResponse (.jObj [("error", .jStr "Invalid message")]) 400 ∧
      (fetchHandler "POST" "/api/chat" (.ok body) ai1 engine ai2 db).2.2 = []) ∧
    (body = .jNull →
      (fetchHandler "POST" "/api/chat" (.ok body) ai1 engine ai2 db).1
          = jsonResponse (errorEnvelope destructureNullMessage) 500 ∧
      (fetchHandler "POST" "/api/chat" (.ok body) ai1 engine ai2 db).2.2 = []) := by
  have hroute : ∀ po,
      fetchHandler "POST" "/api/chat" po ai1 engine ai2 db
        = chatHandler po ai1 engine ai2 db := by
    intro po
    simp [fetchHandler]
  refine ⟨?_, ?_, ?_, ?_⟩
  · intro s hmsg hs
    obtain ⟨fields, rfl⟩ := getField_eq_some hmsg
    rw [hroute]
    simp only [chatHandler, hmsg]
    rw [if_neg hs]
    cases ai1 with
    | error e => rfl
    | ok raw =>
        simp only
        rcases hE : executeQuery engine (postProcessSQL raw) db with ⟨res, db2⟩
        cases res with
        | error e => simp [hE]
        | ok rows => simp [hE]
  · intro hnull hmsg
    rw [hroute]
    cases body with
    | jNull => exact absurd rfl hnull
    | jObj fields => simp [chatHandler, hmsg]
    | jBool b => simp [chatHandler, hmsg]
    | jNum q => simp [chatHandler, hmsg]
    | jStr s0 => simp [chatHandler, hmsg]
    | jArr elems => simp [chatHandler, hmsg]
  · intro j hmsg hj
    obtain ⟨fields, rfl⟩ := getField_eq_some hmsg
    rw [hroute]
    cases j with
    | jStr s => exact absurd rfl (hj s)
    | jNull => simp [chatHandler, hmsg]
    | jBool b => simp [chatHandler, hmsg]
    | jNum q => simp [chatHandler, hmsg]
    | jArr elems => simp [chatHandler, hmsg]
    | jObj fields2 => simp [chatHandler, hmsg]
  · intro hnull
    subst hnull
    rw [hroute]
    exact ⟨rfl, rfl⟩

/-- Witness for C4 (amended): a non-empty string message proceeds to
synthesis; a non-null body without a message field is rejected with 400; a
null body yields the destructuring 500. -/
theorem c4_input_guard_witness :
    (fetchHandler "POST" "/api/chat" (.ok (.jObj [("message", .jStr "hi")])) (.ok "SELECT 1")
        trivEngine (.ok "done") ⟨[], [], []⟩).2.2.head? = some .model ∧
    (fetchHandler "POST" "/api/chat" (.ok (.jObj [])) (.ok "SELECT 1")
        trivEngine (.ok "done") ⟨[], [], []⟩).1
      = jsonResponse (.jObj [("error", .jStr "Invalid message")]) 400 ∧
    (fetchHandler "POST" "/api/chat" (.ok .jNull) (.ok "SELECT 1")
        trivEngine (.ok "done") ⟨[], [], []⟩).1
      = jsonResponse (errorEnvelope destructureNullMessage) 500 := by
  refine ⟨?_, ?_, ?_⟩
  · exact (c4_input_guard (.jObj [("message", .jStr "hi")]) (.ok "SELECT 1") trivEngine
      (.ok "done") ⟨[], [], []⟩).1 "hi" rfl (by decide)
  · exact ((c4_input_guard (.jObj []) (.ok "SELECT 1") trivEngine
      (.ok "done") ⟨[], [], []⟩).2.1 (fun h => Jsonish.noConfusion h) rfl).1
  · exact ((c4_input_guard .jNull (.ok "SELECT 1") trivEngine
      (.ok "done") ⟨[], [], []⟩).2.2.2 rfl).1

/-- The catch-all error envelope always carries a non-empty error string. -/
theorem errorEnvelope_shape (e : String) :
    ∃ e2, e2 ≠ "" ∧ errorEnvelope e
      = .jObj [("success", .jBool false), ("error", .jStr e2)] := by
  by_cases h : e = ""
  · exact ⟨"An error occurred", by decide, by simp [errorEnvelope, h]⟩
  · exact ⟨e, h, by simp [errorEnvelope, h]⟩

/-- Exhaustive shape analysis of the chat route: every outcome is one of
the three JSON envelopes produced by `jsonResponse`. -/
theorem chatHandler_cases (parse : Except String Jsonish) (ai1 : Except String String)
    (engine : String → DBState → Except String (List Row) × DBState)
    (ai2 : Except String String) (db : DBState) :
    (∃ db2 tr, chatHandler parse ai1 engine ai2 db
        = (jsonResponse (.jObj [("error", .jStr "Invalid message")]) 400, db2, tr)) ∨
    (∃ e db2 tr, e ≠ "" ∧ chatHandler parse ai1 engine ai2 db
        = (jsonResponse (.jObj [("success", .jBool false), ("error", .jStr e)]) 500, db2, tr)) ∨
    (∃ m sq rows db2 tr, chatHandler parse ai1 engine ai2 db
        = (jsonResponse (successEnvelope m sq rows) 200, db2, tr)) := by
  cases parse with
  | error e =>
      obtain ⟨e2, he2, hsh⟩ := errorEnvelope_shape e
      exact Or.inr (Or.inl ⟨e2, db, [], he2, by simp [chatHandler, hsh]⟩)
  | ok body =>
      cases body with
      | jNull =>
          obtain ⟨e2, he2, hsh⟩ := errorEnvelope_shape destructureNullMessage
          exact Or.inr (Or.inl ⟨e2, db, [], he2, by simp [chatHandler, hsh]⟩)
      | jBool b => exact Or.inl ⟨db, [], by simp [chatHandler, getField]⟩
      | jNum q => exact Or.inl ⟨db, [], by simp [chatHandler, getField]⟩
      | jStr s0 => exact Or.inl ⟨db, [], by simp [chatHandler, getField]⟩
      | jArr elems => exact Or.inl ⟨db, [], by simp [chatHandler, getField]⟩
      | jObj fields =>
          rcases hm : getField (Jsonish.jObj fields) "message" with - | j
          · exact Or.inl ⟨db, [], by simp [chatHandler, hm]⟩
          · cases j with
            | jStr s =>
                by_cases hs : s = ""
                · exact Or.inl ⟨db, [], by simp [chatHandler, hm, hs]⟩
                · cases ai1 with
                  | error e =>
                      obtain ⟨e2, he2, hsh⟩ := errorEnvelope_shape e
                      exact Or.inr (Or.inl ⟨e2, db, [.model], he2,
                        by simp [chatHandler, hm, hs, hsh]⟩)
                  | ok raw =>
                      rcases hE : executeQuery engine (postProcessSQL raw) db with ⟨res, db2⟩
                      cases res with
                      | error e =>
                          obtain ⟨e2, he2, hsh⟩ := errorEnvelope_shape e
                          exact Or.inr (Or.inl ⟨e2, db2, [.model, .db], he2,
                            by simp [chatHandler, hm, hs, hE, hsh]⟩)
                      | ok rows =>
                          refine Or.inr (Or.inr
                            ⟨(formatResponseT ai2 s rows (postProcessSQL raw)).1,
                              postProcessSQL raw, rows, db2,
                              [.model, .db] ++
                                (if (formatResponseT ai2 s rows (postProcessSQL raw)).2
                                  then [.model] else []), ?_⟩)
                          simp [chatHandler, hm, hs, hE]
            | jNull => exact Or.inl ⟨db, [], by simp [chatHandler, hm]⟩
            | jBool b => exact Or.inl ⟨db, [], by simp [chatHandler, hm]⟩
            | jNum q => exact Or.inl ⟨db, [], by simp [chatHandler, hm]⟩
            | jArr elems => exact Or.inl ⟨db, [], by simp [chatHandler, hm]⟩
            | jObj fields2 => exact Or.inl ⟨db, [], by simp [chatHandler, hm]⟩

/-- C5: every response of the `POST /api/chat` route is a well-formed JSON
envelope carrying the permissive cross-origin header: 400 with an error
string, 200 with the success envelope, or 500 with success false and an
error string — never an unhandled exception, whatever the outcomes of the
body parse, the two model calls and the database. -/
theorem c5_chat_route_envelopes (parse : Except String Jsonish) (ai1 : Except String String)
    (engine : String → DBState → Except String (List Row) × DBState)
    (ai2 : Except String String) (db : DBState) :
    (fetchHandler "POST" "/api/chat" parse ai1 engine ai2 db).1.corsOrigin = true ∧
    (fetchHandler "POST" "/api/chat" parse ai1 engine ai2 db).1.contentType
      = some "application/json" ∧
    (((fetchHandler "POST" "/api/chat" parse ai1 engine ai2 db).1.status = 400 ∧
        ∃ e, e ≠ "" ∧ (fetchHandler "POST" "/api/chat" parse ai1 engine ai2 db).1.body
          = .json (.jObj [("error", .jStr e)])) ∨
      ((fetchHandler "POST" "/api/chat" parse ai1 engine ai2 db).1.status = 200 ∧
        ∃ m sq rows, (fetchHandler "POST" "/api/chat" parse ai1 engine ai2 db).1.body
          = .json (successEnvelope m sq rows)) ∨
      ((fetchHandler "POST" "/api/chat" parse ai1 engine ai2 db).1.status = 500 ∧
        ∃ e, e ≠ "" ∧ (fetchHandler "POST" "/api/chat" parse ai1 engine ai2 db).1.body
          = .json (.jObj [("success", .jBool false), ("error", .jStr e)]))) := by
  have hroute : fetchHandler "POST" "/api/chat" parse ai1 engine ai2 db
      = chatHandler parse ai1 engine ai2 db := by
    simp [fetchHandler]
  rw [hroute]
  rcases chatHandler_cases parse ai1 engine ai2 db with
    ⟨db2, tr, h⟩ | ⟨e, db2, tr, he, h⟩ | ⟨m, sq, rows, db2, tr, h⟩
  · rw [h]
    exact ⟨rfl, rfl, Or.inl ⟨rfl, "Invalid message", by decide, rfl⟩⟩
  · rw [h]
    exact ⟨rfl, rfl, Or.inr (Or.inr ⟨rfl, e, he, rfl⟩)⟩
  · rw [h]
    exact ⟨rfl, rfl, Or.inr (Or.inl ⟨rfl, m, sq, rows, rfl⟩)⟩

/-- C8 (counterexample): `POST /` is not among the routes the claim lists,
yet the handler serves the static document with status 200 and text/html —
the static route ignores the request method, so the claim as stated fails
here. -/
theorem c8_method_ignored_counterexample :
    (fetchHandler "POST" "/" (.ok .jNull) (.ok "") trivEngine (.ok "")
        ⟨[], [], []⟩).1.status = 200 ∧
    (fetchHandler "POST" "/" (.ok .jNull) (.ok "") trivEngine (.ok "")
        ⟨[], [], []⟩).1.contentType = some "text/html" ∧
    (fetchHandler "POST" "/" (.ok .jNull) (.ok "") trivEngine (.ok "")
        ⟨[], [], []⟩).1.status ≠ 404 := by
  decide

/-- C8 (amended): a request matching none of OPTIONS on any path, POST
/api/chat, or any method on / or /index.html gets status 404 with plain-text
body Not found; and every non-OPTIONS request for / or /index.html — on any
method — gets status 200 with Content-Type text/html. -/
theorem c8_routing (method path : String) (parse : Except String Jsonish)
    (ai1 : Except String String)
    (engine : String → DBState → Except String (List Row) × DBState)
    (ai2 : Except String String) (db : DBState) :
    (method ≠ "OPTIONS" → ¬(path = "/api/chat" ∧ method = "POST") →
      path ≠ "/" → path ≠ "/index.html" →
      (fetchHandler method path parse ai1 engine ai2 db).1.status = 404 ∧
      (fetchHandler method path parse ai1 engine ai2 db).1.body = .text "Not found") ∧
    (method ≠ "OPTIONS" → (path = "/" ∨ path = "/index.html") →
      (fetchHandler method path parse ai1 engine ai2 db).1.status = 200 ∧
      (fetchHandler method path parse ai1 engine ai2 db).1.contentType = some "text/html" ∧
      (fetchHandler method path parse ai1 engine ai2 db).1.body = .text HTML_CONTENT) := by
  constructor
  · intro hopt hchat hroot hindex
    simp only [fetchHandler]
    rw [if_neg hopt, if_neg hchat, if_neg (by
      intro hor
      rcases hor with h | h
      · exact hroot h
      · exact hindex h)]
    exact ⟨rfl, rfl⟩
  · intro hopt hor
    simp only [fetchHandler]
    rw [if_neg hopt, if_neg (by
      intro hand
      rcases hor with h | h <;> rw [h] at hand <;> simp at hand), if_pos hor]
    exact ⟨rfl, rfl, rfl⟩

/-- Witness for C8 (amended): an unknown path yields 404, and a GET of the
root yields the document. -/
theorem c8_routing_witness :
    (fetchHandler "GET" "/nope" (.ok .jNull) (.ok "") trivEngine (.ok "")
        ⟨[], [], []⟩).1.status = 404 ∧
    (fetchHandler "GET" "/" (.ok .jNull) (.ok "") trivEngine (.ok "")
        ⟨[], [], []⟩).1.contentType = some "text/html" := by
  constructor
  · exact ((c8_routing "GET" "/nope" (.ok .jNull) (.ok "") trivEngine (.ok "")
      ⟨[], [], []⟩).1 (by decide) (by decide) (by decide) (by decide)).1
  · exact ((c8_routing "GET" "/" (.ok .jNull) (.ok "") trivEngine (.ok "")
      ⟨[], [], []⟩).2 (by decide) (Or.inl rfl)).2.1

/-! ### Claim theorems: the read-only frame -/

/-- C9 (amended): the pipeline itself never touches the tables — the only
path to the database is the single synthesized statement handed to the
engine.  For every engine that executes SELECT statements without mutation,
and every request whose synthesized SQL is a SELECT statement, the three
tables are unchanged when the request completes. -/
theorem c9_readonly_frame (method path : String) (parse : Except String Jsonish)
    (ai1 : Except String String)
    (engine : String → DBState → Except String (List Row) × DBState)
    (ai2 : Except String String) (db : DBState)
    (hsel : ∀ s d, isSelectStmt s = true → (engine s d).2 = d)
    (hsql : ∀ raw, ai1 = .ok raw → isSelectStmt (postProcessSQL raw) = true) :
    (fetchHandler method path parse ai1 engine ai2 db).2.1 = db := by
  simp only [fetchHandler]
  split
  · rfl
  split
  · cases parse with
    | error e => rfl
    | ok body =>
        cases body with
        | jNull => simp [chatHandler]
        | jBool b => simp [chatHandler, getField]
        | jNum q => simp [chatHandler, getField]
        | jStr s0 => simp [chatHandler, getField]
        | jArr elems => simp [chatHandler, getField]
        | jObj fields =>
            rcases hm : getField (Jsonish.jObj fields) "message" with - | j
            · simp [chatHandler, hm]
            · cases j with
              | jStr s =>
                  by_cases hs : s = ""
                  · simp [chatHandler, hm, hs]
                  · cases ai1 with
                    | error e => simp [chatHandler, hm, hs]
                    | ok raw =>
                        have hsel2 : (engine (postProcessSQL raw) db).2 = db :=
                          hsel _ _ (hsql raw rfl)
                        rcases hEng : engine (postProcessSQL raw) db with ⟨res, db2⟩
                        have hdb2 : db2 = db := by
                          rw [hEng] at hsel2
                          exact hsel2
                        subst hdb2
                        cases res with
                        | error e => simp [chatHandler, hm, hs, executeQuery, hEng]
                        | ok rows => simp [chatHandler, hm, hs, executeQuery, hEng]
              | jNull => simp [chatHandler, hm]
              | jBool b => simp [chatHandler, hm]
              | jNum q => simp [chatHandler, hm]
              | jArr elems => simp [chatHandler, hm]
              | jObj fields2 => simp [chatHandler, hm]
  split
  · rfl
  · rfl

/-- Witness for C9 (amended) on a SELECT round trip through the read-only
engine. -/
theorem c9_readonly_frame_witness :
    (fetchHandler "POST" "/api/chat" (.ok (.jObj [("message", .jStr "hi")]))
        (.ok "SELECT 1") trivEngine (.ok "fine") ⟨[], [], []⟩).2.1 = ⟨[], [], []⟩ :=
  c9_readonly_frame "POST" "/api/chat" (.ok (.jObj [("message", .jStr "hi")]))
    (.ok "SELECT 1") trivEngine (.ok "fine") ⟨[], [], []⟩
    (fun _ _ _ => rfl)
    (fun raw hr => by cases hr; decide)

/-- C9 (counterexample): the executor applies no validation, so a non-SELECT
synthesized statement mutates the tables: with an engine that (like a real
SQL engine) executes data-changing statements, a request whose model output
is a DELETE empties the people table. -/
theorem c9_unvalidated_sql_counterexample :
    (∀ s d, isSelectStmt s = true → (deleteEngine s d).2 = d) ∧
    (fetchHandler "POST" "/api/chat" (.ok (.jObj [("message", .jStr "wipe")]))
        (.ok "DELETE FROM people") deleteEngine (.ok "gone")
        ⟨[[("playerID", Value.vStr "x")]], [], []⟩).2.1
      ≠ ⟨[[("playerID", Value.vStr "x")]], [], []⟩ ∧
    (fetchHandler "POST" "/api/chat" (.ok (.jObj [("message", .jStr "wipe")]))
        (.ok "DELETE FROM people") deleteEngine (.ok "gone")
        ⟨[[("playerID", Value.vStr "x")]], [], []⟩).2.1.people = [] := by
  refine ⟨?_, by decide, by decide⟩
  intro s d h
  simp [deleteEngine, h]

/-! ### Claim theorems: SQL post-processing -/

/-- If the stripped output starts with a backtick, so does the input. -/
theorem stripFencesGo_head_tick :
    ∀ (fuel : Nat) (l : List Char), [tick] <+: stripFencesGo fuel l → [tick] <+: l := by
  intro fuel
  induction fuel with
  | zero =>
      intro l h
      simp [stripFencesGo] at h
  | succ f ih =>
      intro l h
      cases l with
      | nil => simp [stripFencesGo] at h
      | cons c rest =>
          by_cases hc : c = tick ∧ rest.take 2 = [tick, tick]
          · rw [hc.1]
            exact List.cons_prefix_cons.mpr ⟨rfl, List.nil_prefix⟩
          · simp only [stripFencesGo] at h
            rw [if_neg hc] at h
            obtain ⟨h1, -⟩ := List.cons_prefix_cons.mp h
            rw [← h1]
            exact List.cons_prefix_cons.mpr ⟨rfl, List.nil_prefix⟩

/-- If the stripped output starts with two backticks, so does the input. -/
theorem stripFencesGo_head_ticktick :
    ∀ (fuel : Nat) (l : List Char),
      [tick, tick] <+: stripFencesGo fuel l → [tick, tick] <+: l := by
  intro fuel
  induction fuel with
  | zero =>
      intro l h
      simp [stripFencesGo] at h
  | succ f ih =>
      intro l h
      cases l with
      | nil => simp [stripFencesGo] at h
      | cons c rest =>
          by_cases hc : c = tick ∧ rest.take 2 = [tick, tick]
          · obtain ⟨hc1, hc2⟩ := hc
            cases rest with
            | nil => simp at hc2
            | cons a rest1 =>
                cases rest1 with
                | nil => simp at hc2
                | cons b rest2 =>
                    simp at hc2
                    rw [hc1, hc2.1]
                    exact List.cons_prefix_cons.mpr
                      ⟨rfl, List.cons_prefix_cons.mpr ⟨rfl, List.nil_prefix⟩⟩
          · simp only [stripFencesGo] at h
            rw [if_neg hc] at h
            obtain ⟨h1, h2⟩ := List.cons_prefix_cons.mp h
            rw [← h1]
            exact List.cons_prefix_cons.mpr ⟨rfl, stripFencesGo_head_tick f rest h2⟩

/-- The fence stripper leaves no run of three backticks: any surviving
occurrence would have been matched at the leftmost position it starts. -/
theorem stripFencesGo_no_triple :
    ∀ (fuel : Nat) (l : List Char), ¬ ([tick, tick, tick] <:+: stripFencesGo fuel l) := by
  intro fuel
  induction fuel with
  | zero =>
      intro l h
      simp [stripFencesGo] at h
  | succ f ih =>
      intro l h
      cases l with
      | nil => simp [stripFencesGo] at h
      | cons c rest =>
          by_cases hc : c = tick ∧ rest.take 2 = [tick, tick]
          · simp only [stripFencesGo] at h
            rw [if_pos hc] at h
            exact ih _ h
          · simp only [stripFencesGo] at h
            rw [if_neg hc] at h
            rcases List.infix_cons_iff.mp h with hpre | hinf
            · obtain ⟨h1, h2⟩ := List.cons_prefix_cons.mp hpre
              have h3 : [tick, tick] <+: rest := stripFencesGo_head_ticktick f rest h2
              apply hc
              refine ⟨h1.symm, ?_⟩
              have := List.prefix_iff_eq_take.mp h3
              exact this.symm
            · exact ih rest hinf

/-- A palindromic pattern that is an infix of a reversed list is an infix of
the list. -/
theorem infix_of_infix_reverse {pat l : List Char} (hrev : pat.reverse = pat)
    (h : pat <:+: l.reverse) : pat <:+: l := by
  rw [← hrev] at h
  exact List.reverse_infix.mp h

/-- An infix of a `dropWhile` is an infix of the whole list. -/
theorem infix_of_dropWhile {pat l : List Char} (p : Char → Bool)
    (h : pat <:+: l.dropWhile p) : pat <:+: l :=
  h.trans (List.dropWhile_suffix p).isInfix

/-- Trimming cannot create a run of three backticks. -/
theorem no_triple_jsTrim {l : List Char} (h : ¬ [tick, tick, tick] <:+: l) :
    ¬ [tick, tick, tick] <:+: jsTrim l := by
  intro hin
  apply h
  unfold jsTrim at hin
  have h1 := infix_of_infix_reverse rfl hin
  have h2 := infix_of_dropWhile jsWS h1
  have h3 := infix_of_infix_reverse rfl h2
  exact infix_of_dropWhile jsWS h3

/-- Appending the terminating semicolon cannot create a run of three
backticks. -/
theorem no_triple_append_semi {l : List Char} (h : ¬ [tick, tick, tick] <:+: l) :
    ¬ [tick, tick, tick] <:+: l ++ [';'] := by
  intro hin
  have h2 : [tick, tick, tick] <:+: ';' :: l.reverse := by
    have h3 := List.reverse_infix.mpr hin
    simpa [List.reverse_append] using h3
  rcases List.infix_cons_iff.mp h2 with hpre | hinf
  · have := (List.cons_prefix_cons.mp hpre).1
    exact absurd this (by decide)
  · exact h (infix_of_infix_reverse rfl hinf)

/-- The head of a `dropWhile` fails the predicate. -/
theorem dropWhile_head_not {p : Char → Bool} {l : List Char} {c : Char}
    (h : (l.dropWhile p).head? = some c) : p c = false := by
  have h2 := List.head?_dropWhile_not p l
  rw [h] at h2
  exact h2

/-- A non-empty suffix determines the last element. -/
theorem suffix_getLast {l1 l2 : List Char} (h : l1 <:+ l2) {c : Char}
    (hc : l1.getLast? = some c) : l2.getLast? = some c := by
  obtain ⟨t, rfl⟩ := h
  rw [List.getLast?_append, hc]
  rfl

/-- The last character of a trimmed list is not whitespace. -/
theorem jsTrim_getLast_not_ws {l : List Char} {c : Char}
    (h : (jsTrim l).getLast? = some c) : jsWS c = false := by
  unfold jsTrim at h
  rw [List.getLast?_reverse] at h
  exact dropWhile_head_not h

/-- The first character of a trimmed list is not whitespace. -/
theorem jsTrim_head_not_ws {l : List Char} {c : Char}
    (h : (jsTrim l).head? = some c) : jsWS c = false := by
  unfold jsTrim at h
  rw [List.head?_reverse] at h
  have h2 := suffix_getLast (List.dropWhile_suffix (l := (l.dropWhile jsWS).reverse) jsWS) h
  rw [List.getLast?_reverse] at h2
  exact dropWhile_head_not h2

/-- C6: the post-processed model text always ends with a semicolon, contains
no code-fence delimiter (no run of three backticks survives), and carries no
leading or trailing whitespace; the semicolon is appended exactly when the
stripped text does not already end with one. -/
theorem c6_sql_postprocessing (raw : String) :
    (postProcessChars raw).getLast? = some ';' ∧
    ¬ ([tick, tick, tick] <:+: postProcessChars raw) ∧
    (∀ c, (postProcessChars raw).head? = some c → jsWS c = false) ∧
    (∀ c, (postProcessChars raw).getLast? = some c → jsWS c = false) ∧
    ((strippedSQL raw).getLast? = some ';' → postProcessChars raw = strippedSQL raw) ∧
    ((strippedSQL raw).getLast? ≠ some ';' →
      postProcessChars raw = strippedSQL raw ++ [';']) := by
  have hnt : ¬ [tick, tick, tick] <:+: strippedSQL raw := by
    unfold strippedSQL
    exact no_triple_jsTrim (stripFencesGo_no_triple _ _)
  have hlast : (postProcessChars raw).getLast? = some ';' := by
    simp only [postProcessChars]
    split
    · assumption
    · exact List.getLast?_concat _
  refine ⟨hlast, ?_, ?_, ?_, ?_, ?_⟩
  · simp only [postProcessChars]
    split
    · exact hnt
    · exact no_triple_append_semi hnt
  · intro c hc
    simp only [postProcessChars] at hc
    split at hc
    · exact jsTrim_head_not_ws hc
    · cases hstr : strippedSQL raw with
      | nil =>
          rw [hstr] at hc
          simp at hc
          rw [← hc]
          decide
      | cons a l1 =>
          rw [hstr] at hc
          simp at hc
          apply jsTrim_head_not_ws (l := stripFences (stripSqlFences (jsTrim raw.data)))
          show (strippedSQL raw).head? = some c
          rw [hstr, hc]
          rfl
  · intro c hc
    rw [hlast] at hc
    injection hc with hc
    rw [← hc]
    decide
  · intro hend
    simp only [postProcessChars]
    rw [if_pos hend]
  · intro hend
    simp only [postProcessChars]
    rw [if_neg hend]

/-- Witness for C6 on a fenced model answer. -/
theorem c6_sql_postprocessing_witness :
    (postProcessChars "  SELECT 1  ").getLast? = some ';' ∧
    ¬ ([tick, tick, tick] <:+: postProcessChars "  SELECT 1  ") ∧
    postProcessChars "  SELECT 1  " = "SELECT 1;".data := by
  obtain ⟨h1, h2, -, -, -, h6⟩ := c6_sql_postprocessing "  SELECT 1  "
  refine ⟨h1, h2, ?_⟩
  rw [h6 (by decide)]
  decide
